import Mathlib

/-!
The connection-level command protocol of go-mysql, `client/conn.go`.

A shallow embedding of `src/client/conn.go`.  A Go method on `*Conn` becomes a
function that takes the connection value and returns its results together with
the connection value it leaves behind.  The packet transport (`*packet.Conn`)
is a scripted channel: the packets the server will deliver and the outcome of
every write are inputs, and the traffic that really happened is recorded.
-/

namespace GoMysql

/-! ## Errors and protocol constants -/

/-- Go `error` values that the client produces or passes on. `traced` is the
wrapper that `errors.Trace` puts around a non-nil error. -/
inductive Error where
  | io (msg : String)
  | server (code : Nat) (state : String) (msg : String)
  | protocol (msg : String)
  | traced (cause : Error)
deriving DecidableEq, Repr

/-- Modelled from the spec: header byte of an OK packet (`0x00=OK`); the
constant lives in the imported `mysql` package. -/
def OK_HEADER : Nat := 0x00

/-- Modelled from the spec: header byte of an ERROR packet (`0xFF=ERROR`). -/
def ERR_HEADER : Nat := 0xff

/-- Modelled from the spec: header byte of an EOF packet (`0xFE=EOF`). -/
def EOF_HEADER : Nat := 0xfe

/-- Modelled from the spec: opcode of the init-db command (MySQL protocol value). -/
def COM_INIT_DB : Nat := 2

/-- Modelled from the spec: opcode of the query command (MySQL protocol value). -/
def COM_QUERY : Nat := 3

/-- Modelled from the spec: opcode of the legacy field-list command (MySQL
protocol value). -/
def COM_FIELD_LIST : Nat := 4

/-- Modelled from the spec: opcode of the ping command (MySQL protocol value). -/
def COM_PING : Nat := 14

/-- Modelled from the spec: the in-transaction flag mask of the status bitset. -/
def SERVER_STATUS_IN_TRANS : Nat := 0x0001

/-- Modelled from the spec: the autocommit flag mask of the status bitset. -/
def SERVER_STATUS_AUTOCOMMIT : Nat := 0x0002

/-! ## The packet channel -/

/-- What the client hands to `WritePacket`: a command (one opcode byte and its
textual arguments) or any other payload. -/
inductive Frame where
  | command (op : Nat) (args : List String)
  | raw (bytes : List Nat)
deriving DecidableEq, Repr

/-- What one call of `ReadPacket` yields: a payload or a transport error. -/
inductive Incoming where
  | packet (data : List Nat)
  | failure (e : Error)
deriving DecidableEq, Repr

/-- One entry of the traffic record of a channel. -/
inductive Event where
  | wrote (f : Frame)
  | writeFailed (f : Frame) (e : Error)
  | read (data : List Nat)
  | readFailed (e : Error)
deriving DecidableEq, Repr

/-- Modelled from the spec: the PacketChannel collaborator (`*packet.Conn`),
`ReadPacket() → bytes | IOError`, `WritePacket(bytes) → IOError?`.  `rx` is
what the coming reads will yield, in server order; `wx` is what the coming
writes will return (`none` for success); `log` is the traffic so far and
`closes` counts the calls of `Close`. -/
structure PacketConn where
  rx : List Incoming
  wx : List (Option Error)
  closeErr : Option Error
  log : List Event
  closes : Nat
deriving DecidableEq, Repr

/-- Transport-security configuration (`*tls.Config`), as far as this file sets it. -/
structure TLSConfig where
  insecureSkipVerify : Bool
deriving DecidableEq, Repr

/-- The `Conn` struct. -/
structure Conn where
  pconn : PacketConn
  user : String
  password : String
  db : String
  tlsConfig : Option TLSConfig
  proto : String
  capability : Nat
  status : Nat
  charset : String
  salt : List Nat
  authPluginName : String
  connectionID : Nat
deriving DecidableEq, Repr

/-- Modelled from the spec: `ReadPacket() → bytes | IOError`.  Takes the next
scripted item; a script that has run out stands for a peer that sends nothing
more, which the caller sees as a transport error. -/
def ReadPacket (c : Conn) : Incoming × Conn :=
  match c.pconn.rx with
  | [] =>
    (.failure (.io "EOF"),
      { c with pconn := { c.pconn with log := c.pconn.log ++ [.readFailed (.io "EOF")] } })
  | .packet data :: rest =>
    (.packet data,
      { c with pconn := { c.pconn with rx := rest, log := c.pconn.log ++ [.read data] } })
  | .failure e :: rest =>
    (.failure e,
      { c with pconn := { c.pconn with rx := rest, log := c.pconn.log ++ [.readFailed e] } })

/-- Modelled from the spec: `WritePacket(bytes) → IOError?`.  The outcome is
the next scripted one; with no script left the write succeeds. -/
def WritePacket (f : Frame) (c : Conn) : Option Error × Conn :=
  match c.pconn.wx with
  | [] => (none, { c with pconn := { c.pconn with log := c.pconn.log ++ [.wrote f] } })
  | none :: rest =>
    (none, { c with pconn := { c.pconn with wx := rest, log := c.pconn.log ++ [.wrote f] } })
  | some e :: rest =>
    (some e,
      { c with pconn := { c.pconn with wx := rest, log := c.pconn.log ++ [.writeFailed f e] } })

/-- `Conn.Close`: closes the embedded packet connection. -/
def Close (c : Conn) : Option Error × Conn :=
  (c.pconn.closeErr, { c with pconn := { c.pconn with closes := c.pconn.closes + 1 } })

/-! ## getNetProto -/

/-- Go `strings.Contains(s, substr)`: some suffix of `s` starts with `substr`. -/
def stringsContains : List Char → List Char → Bool
  | [], sub => sub.isEmpty
  | c :: cs, sub => sub.isPrefixOf (c :: cs) || stringsContains cs sub

/-- `getNetProto`. -/
def getNetProto (addr : String) : String :=
  if stringsContains addr.data "/".data then "unix" else "tcp"

/-! ## Status reads -/

/-- `Conn.IsAutoCommit`. -/
def IsAutoCommit (c : Conn) : Bool × Conn :=
  (decide (c.status &&& SERVER_STATUS_AUTOCOMMIT > 0), c)

/-- `Conn.IsInTransaction`. -/
def IsInTransaction (c : Conn) : Bool × Conn :=
  (decide (c.status &&& SERVER_STATUS_IN_TRANS > 0), c)

/-- `Conn.GetDB`. -/
def GetDB (c : Conn) : String := c.db

/-- `Conn.GetCharset`. -/
def GetCharset (c : Conn) : String := c.charset

/-! ## Collaborators that are not part of conn.go -/

/-- Modelled from the spec: a Field descriptor (`name, type code, length,
decimal count, flags`); the type lives in the imported `mysql` package. -/
structure Field where
  name : List Nat
  type : Nat
  length : Nat
  decimals : Nat
  flags : Nat
deriving DecidableEq, Repr

/-- Modelled from the spec: what `ParseOK` recovers from an OK packet
(`affectedRows, lastInsertID, statusFlags, warnings`). -/
structure OKInfo where
  affectedRows : Nat
  insertId : Nat
  status : Nat
  warnings : Nat
deriving DecidableEq, Repr

/-- Modelled from the spec: a Result is a status result or a result-set
(ordered Field descriptors and ordered rows of nullable values). -/
inductive Result where
  | status (info : OKInfo)
  | resultSet (fields : List Field) (rows : List (List (Option (List Nat))))
deriving DecidableEq, Repr

/-- Value-or-error result of a helper, Go's `(v, err)` with exactly one set. -/
inductive Res (α : Type) where
  | ok (val : α)
  | err (e : Error)
deriving DecidableEq, Repr

/-- The parts of the client that conn.go calls and that are defined outside
it, taken as parameters: the packet codec (`FieldData.Parse`, the decoding of
ERROR and OK packets), the result decoder `readResult` and the three steps of
the handshake negotiator. -/
structure Deps where
  parseField : List Nat → Res Field
  decodeError : List Nat → Error
  parseOK : List Nat → Res OKInfo
  readResult : Bool → Conn → Res Result × Conn
  readInitialHandshake : Conn → Option Error × Conn
  writeAuthHandshake : Conn → Option Error × Conn
  handleAuthResult : Conn → Option Error × Conn

/-- Modelled from the spec: `writeCommandStr`, a command is a `single-byte
opcode + payload` (`INIT_DB (+ db name)`, `QUERY (+ SQL text)`) handed to the
packet channel. -/
def writeCommandStr (command : Nat) (arg : String) (c : Conn) : Option Error × Conn :=
  WritePacket (.command command [arg]) c

/-- Modelled from the spec: `writeCommandStrStr`, the command
`FIELD_LIST (+ table, wildcard)` handed to the packet channel. -/
def writeCommandStrStr (command : Nat) (arg1 arg2 : String) (c : Conn) :
    Option Error × Conn :=
  WritePacket (.command command [arg1, arg2]) c

/-- Modelled from the spec: `isEOFPacket`, `a ≤5-byte payload starting 0xFE`
is EOF. -/
def isEOFPacket (_c : Conn) (data : List Nat) : Bool :=
  data.head? == some EOF_HEADER && decide (data.length ≤ 5)

/-- Modelled from the spec: `handleErrorPacket`, the decoded ERROR packet
(`errorCode, sqlState, message`) as the error of the call. -/
def handleErrorPacket (D : Deps) (_c : Conn) (data : List Nat) : Error :=
  D.decodeError data

/-- Modelled from the spec: `handleOKPacket`, decodes the OK packet and records
its status flags in the cached 16-bit status. -/
def handleOKPacket (D : Deps) (data : List Nat) (c : Conn) : Res Result × Conn :=
  match D.parseOK data with
  | .err e => (.err e, c)
  | .ok info => (.ok (.status info), { c with status := info.status % 65536 })

/-- Modelled from the spec: `readOK`, reads one packet and `expects exactly an
OK response`: an OK packet is decoded, an ERROR packet gives the server's
error, any other shape is a protocol error. -/
def readOK (D : Deps) (c : Conn) : Res Result × Conn :=
  match ReadPacket c with
  | (.failure e, c1) => (.err (.traced e), c1)
  | (.packet data, c1) =>
    if data.head? = some OK_HEADER then handleOKPacket D data c1
    else if data.head? = some ERR_HEADER then (.err (handleErrorPacket D c1 data), c1)
    else (.err (.protocol "invalid ok packet"), c1)

/-! ## conn.go -/

/-- `Conn.handshake`. -/
def handshake (D : Deps) (c : Conn) : Option Error × Conn :=
  match D.readInitialHandshake c with
  | (some err, c1) => (some (.traced err), (Close c1).2)
  | (none, c1) =>
    match D.writeAuthHandshake c1 with
    | (some err, c2) => (some (.traced err), (Close c2).2)
    | (none, c2) =>
      match D.handleAuthResult c2 with
      | (some err, c3) => (some (.traced err), (Close c3).2)
      | (none, c3) => (none, c3)

/-- `LoginTest`: the deferred `conn.Close()` runs when the success path returns. -/
def LoginTest (D : Deps) (conn : Conn) (username password dbname : String) :
    Option Error × Conn :=
  let conn1 := { conn with user := username, password := password, db := dbname }
  match handshake D conn1 with
  | (some err, conn2) => (some err, conn2)
  | (none, conn2) => (none, (Close conn2).2)

/-- `Conn.UseDB`. -/
def UseDB (D : Deps) (dbName : String) (c : Conn) : Option Error × Conn :=
  if c.db = dbName then (none, c)
  else
    match writeCommandStr COM_INIT_DB dbName c with
    | (some err, c1) => (some (.traced err), c1)
    | (none, c1) =>
      match readOK D c1 with
      | (.err err, c2) => (some (.traced err), c2)
      | (.ok _, c2) => (none, { c2 with db := dbName })

/-- `Conn.exec`. -/
def exec (D : Deps) (query : String) (c : Conn) : Res Result × Conn :=
  match writeCommandStr COM_QUERY query c with
  | (some err, c1) => (.err (.traced err), c1)
  | (none, c1) => D.readResult false c1

/-- `Conn.SetCharset`; `fmt.Sprintf("SET NAMES %s", charset)` is the
concatenation of the two strings. -/
def SetCharset (D : Deps) (charset : String) (c : Conn) : Option Error × Conn :=
  if c.charset = charset then (none, c)
  else
    match exec D ("SET NAMES " ++ charset) c with
    | (.err err, c1) => (some (.traced err), c1)
    | (.ok _, c1) => (none, { c1 with charset := charset })

/-- How a call ends: it returns, it aborts with a run-time panic (an index
out of range), or the iteration budget of the embedding ran out. -/
inductive Outcome (α : Type) where
  | returned (val : α)
  | panicked
  | unfinished
deriving DecidableEq, Repr

/-- What `FieldList` returns: the Field slice (`none` is the nil slice) and
the error (`none` is nil). -/
abbrev FieldListResult := Option (List Field) × Option Error

/-- The `for` loop of `Conn.FieldList`, one iteration per unit of budget. -/
def fieldListLoop (D : Deps) : Nat → Conn → List Field → Outcome FieldListResult × Conn
  | 0, c, _ => (.unfinished, c)
  | n + 1, c, fs =>
    match ReadPacket c with
    | (.failure err, c1) => (.returned (none, some (.traced err)), c1)
    | (.packet data, c1) =>
      if isEOFPacket c1 data then (.returned (some fs, none), c1)
      else
        match D.parseField data with
        | .err err => (.returned (none, some (.traced err)), c1)
        | .ok f => fieldListLoop D n c1 (fs ++ [f])

/-- `Conn.FieldList`.  The loop gets one iteration more than there are
scripted reads left, which is more than it can use. -/
def FieldList (D : Deps) (table wildcard : String) (c : Conn) :
    Outcome FieldListResult × Conn :=
  match writeCommandStrStr COM_FIELD_LIST table wildcard c with
  | (some err, c1) => (.returned (none, some (.traced err)), c1)
  | (none, c1) =>
    match ReadPacket c1 with
    | (.failure err, c2) => (.returned (none, some (.traced err)), c2)
    | (.packet data, c2) =>
      match data with
      | [] => (.panicked, c2)
      | b :: _ =>
        if b = ERR_HEADER then (.returned (none, some (handleErrorPacket D c2 data)), c2)
        else fieldListLoop D (c2.pconn.rx.length + 1) c2 []

/-! ## What the theorems ask of the collaborators -/

/-- The handshake steps do not close the connection themselves. -/
def Deps.stepsKeepOpen (D : Deps) : Prop :=
  ∀ x : Conn,
    (D.readInitialHandshake x).2.pconn.closes = x.pconn.closes ∧
    (D.writeAuthHandshake x).2.pconn.closes = x.pconn.closes ∧
    (D.handleAuthResult x).2.pconn.closes = x.pconn.closes

/-- The fields `user`, `password` and `db` of a connection. -/
def Conn.credentials (c : Conn) : String × String × String :=
  (c.user, c.password, c.db)

/-- The handshake steps read the credentials and do not overwrite them. -/
def Deps.stepsKeepCredentials (D : Deps) : Prop :=
  ∀ x : Conn,
    (D.readInitialHandshake x).2.credentials = x.credentials ∧
    (D.writeAuthHandshake x).2.credentials = x.credentials ∧
    (D.handleAuthResult x).2.credentials = x.credentials

/-- The result decoder leaves the stored charset alone and only adds to the
traffic of the packet channel. -/
def Deps.readResultKeepsCharset (D : Deps) : Prop :=
  ∀ (b : Bool) (x : Conn),
    (D.readResult b x).2.charset = x.charset ∧
    x.pconn.log <+: (D.readResult b x).2.pconn.log

/-! ## A small set of collaborators, to run the embedding on concrete traffic -/

/-- A toy field-descriptor codec: a length byte, the name, then one byte each
for type, length, decimals and flags. -/
def demoParseField : List Nat → Res Field
  | [] => .err (.protocol "malformed field packet")
  | n :: rest =>
    if n + 4 ≤ rest.length then
      .ok { name := rest.take n, type := rest.getD n 0, length := rest.getD (n + 1) 0,
            decimals := rest.getD (n + 2) 0, flags := rest.getD (n + 3) 0 }
    else .err (.protocol "malformed field packet")

/-- A toy ERROR-packet decoder: the two bytes after the header are the
little-endian error code. -/
def demoDecodeError (data : List Nat) : Error :=
  .server (data.getD 1 0 + 256 * data.getD 2 0) "HY000" ""

/-- A toy OK-packet decoder: header, affected rows, insert id, two status
bytes, two warning bytes. -/
def demoParseOK : List Nat → Res OKInfo
  | _ :: a :: i :: s0 :: s1 :: w0 :: w1 :: _ =>
    .ok { affectedRows := a, insertId := i, status := s0 + 256 * s1, warnings := w0 + 256 * w1 }
  | _ => .err (.protocol "malformed ok packet")

/-- A toy result decoder: one packet, OK or ERROR, anything else an empty
result-set. -/
def demoReadResult (_binary : Bool) (c : Conn) : Res Result × Conn :=
  match ReadPacket c with
  | (.failure e, c1) => (.err (.traced e), c1)
  | (.packet data, c1) =>
    if data.head? = some OK_HEADER then
      match demoParseOK data with
      | .err e => (.err e, c1)
      | .ok info => (.ok (.status info), { c1 with status := info.status % 65536 })
    else if data.head? = some ERR_HEADER then (.err (demoDecodeError data), c1)
    else (.ok (.resultSet [] []), c1)

/-- A toy greeting reader: one packet whose first byte is protocol version 10,
followed by the connection id and the salt. -/
def demoReadInitialHandshake (c : Conn) : Option Error × Conn :=
  match ReadPacket c with
  | (.failure e, c1) => (some (.traced e), c1)
  | (.packet data, c1) =>
    if data.head? = some 10 then
      (none, { c1 with connectionID := data.getD 1 0, salt := data.drop 2 })
    else (some (.protocol "invalid protocol version"), c1)

/-- A toy auth writer: one payload carrying the salt back. -/
def demoWriteAuthHandshake (c : Conn) : Option Error × Conn :=
  WritePacket (.raw c.salt) c

/-- A toy auth-result handler: one packet, which must be an OK packet. -/
def demoHandleAuthResult (c : Conn) : Option Error × Conn :=
  match ReadPacket c with
  | (.failure e, c1) => (some (.traced e), c1)
  | (.packet data, c1) =>
    if data.head? = some OK_HEADER then (none, c1)
    else if data.head? = some ERR_HEADER then (some (demoDecodeError data), c1)
    else (some (.protocol "invalid auth result"), c1)

/-- The toy collaborators together. -/
def demoDeps : Deps where
  parseField := demoParseField
  decodeError := demoDecodeError
  parseOK := demoParseOK
  readResult := demoReadResult
  readInitialHandshake := demoReadInitialHandshake
  writeAuthHandshake := demoWriteAuthHandshake
  handleAuthResult := demoHandleAuthResult

/-- A connection on a `tcp` transport with the given read and write scripts,
database `test`, charset `utf8` and status `autocommit`. -/
def demoConn (rx : List Incoming) (wx : List (Option Error)) : Conn where
  pconn := { rx := rx, wx := wx, closeErr := none, log := [], closes := 0 }
  user := "root"
  password := "secret"
  db := "test"
  tlsConfig := none
  proto := "tcp"
  capability := 512
  status := 2
  charset := "utf8"
  salt := []
  authPluginName := "mysql_native_password"
  connectionID := 0

/-- A field-descriptor packet for the toy codec: a column named `id`. -/
def demoFieldPacket : List Nat := [2, 105, 100, 3, 11, 0, 0]

/-- A second field-descriptor packet for the toy codec: a column named `n`. -/
def demoFieldPacket2 : List Nat := [1, 110, 3, 11, 0, 0]

/-- An EOF packet. -/
def demoEOFPacket : List Nat := [0xfe, 0, 0, 2, 0]

/-- An OK packet. -/
def demoOKPacket : List Nat := [0, 0, 0, 2, 0, 0, 0]

/-- An ERROR packet with code 1146. -/
def demoErrPacket : List Nat := [0xff, 0x7a, 0x04, 35]

/-- A response stream for the toy codec: a first field packet, `n` more field
packets and the closing EOF packet. -/
def demoLongStream (n : Nat) : List Incoming :=
  Incoming.packet demoFieldPacket ::
    ((List.replicate n demoFieldPacket).map Incoming.packet ++ [Incoming.packet demoEOFPacket])

/-! ## Theorems -/

/-- `strings.Contains` with a one-character pattern is membership of that
character. -/
theorem stringsContains_singleton (ch : Char) (s : List Char) :
    stringsContains s [ch] = true ↔ ch ∈ s := by
  induction s with
  | nil => simp [stringsContains]
  | cons a t ih =>
    simp only [stringsContains, Bool.or_eq_true, ih, List.mem_cons]
    constructor
    · rintro (h | h)
      · left
        simpa [List.isPrefixOf] using h
      · exact Or.inr h
    · rintro (h | h)
      · left
        simp [List.isPrefixOf, h]
      · exact Or.inr h

/-- C9: `getNetProto addr` is `"unix"` when `addr` contains the character `/`
anywhere and `"tcp"` otherwise. -/
theorem getNetProto_slash (addr : String) :
    getNetProto addr = if '/' ∈ addr.data then "unix" else "tcp" := by
  unfold getNetProto
  have h := stringsContains_singleton '/' addr.data
  by_cases hm : '/' ∈ addr.data
  · have h1 : stringsContains addr.data "/".data = true := h.mpr hm
    simp [h1, hm]
  · have h1 : stringsContains addr.data "/".data = false := by
      cases hb : stringsContains addr.data "/".data
      · rfl
      · exact absurd (h.mp hb) hm
    simp [h1, hm]

/-- C8: `IsAutoCommit` returns true exactly when bit `0x0002` of the cached
status is set, `IsInTransaction` exactly when bit `0x0001` is set, and both
leave the connection, its packet channel included, as it was. -/
theorem status_reads (c : Conn) :
    IsAutoCommit c = (c.status.testBit 1, c) ∧
    IsInTransaction c = (c.status.testBit 0, c) := by
  constructor
  · have h : c.status &&& SERVER_STATUS_AUTOCOMMIT = (c.status.testBit 1).toNat * 2 ^ 1 := by
      have := Nat.and_two_pow c.status 1
      simpa [SERVER_STATUS_AUTOCOMMIT] using this
    unfold IsAutoCommit
    rw [h]
    cases c.status.testBit 1 <;> simp
  · have h : c.status &&& SERVER_STATUS_IN_TRANS = (c.status.testBit 0).toNat * 2 ^ 0 := by
      have := Nat.and_two_pow c.status 0
      simpa [SERVER_STATUS_IN_TRANS] using this
    unfold IsInTransaction
    rw [h]
    cases c.status.testBit 0 <;> simp

/-- C2: `UseDB` with the name that is already stored returns success and
leaves the whole connection unchanged: nothing is written to the packet
channel, nothing is read from it, no field changes. -/
theorem UseDB_same_database (D : Deps) (c : Conn) :
    UseDB D c.db c = (none, c) ∧
    (UseDB D c.db c).2.pconn.log = c.pconn.log ∧
    (UseDB D c.db c).2.pconn.rx = c.pconn.rx ∧
    (UseDB D c.db c).2.pconn.wx = c.pconn.wx := by
  simp [UseDB]

/-- C3: for a name other than the stored one, a successful `UseDB` leaves
`GetDB` equal to the new name, and its traffic is the init-db command followed
by the read of the OK packet; a failed `UseDB` leaves the stored name as it
was.  Success is exactly: the command write succeeded and the next packet is
an OK packet that decodes. -/
theorem UseDB_other_database (D : Deps) (c : Conn) (dbName : String) (h : c.db ≠ dbName) :
    ((UseDB D dbName c).1 = none →
      GetDB (UseDB D dbName c).2 = dbName ∧
      ∃ pkt, pkt.head? = some OK_HEADER ∧
        (UseDB D dbName c).2.pconn.log =
          c.pconn.log ++ [.wrote (.command COM_INIT_DB [dbName]), .read pkt]) ∧
    ((UseDB D dbName c).1 ≠ none → GetDB (UseDB D dbName c).2 = c.db) ∧
    ((UseDB D dbName c).1 = none ↔
      (writeCommandStr COM_INIT_DB dbName c).1 = none ∧
      ∃ pkt rest info, c.pconn.rx = .packet pkt :: rest ∧ pkt.head? = some OK_HEADER ∧
        D.parseOK pkt = .ok info) := by
  simp only [UseDB, if_neg h, writeCommandStr, WritePacket, GetDB]
  rcases hw : c.pconn.wx with _ | ⟨_ | e, wrest⟩ <;>
    simp only [readOK, ReadPacket, handleOKPacket, handleErrorPacket] <;>
    rcases hr : c.pconn.rx with _ | ⟨pkt | e2, rest⟩ <;> simp
  all_goals
    by_cases h0 : pkt.head? = some OK_HEADER
    · rcases hp : D.parseOK pkt with info | e3 <;> simp [h0, hp]
    · by_cases h1 : pkt.head? = some ERR_HEADER
      · have h2 : ¬ ERR_HEADER = OK_HEADER := by decide
        simp [h1, h2]
      · simp [h0, h1]

/-- C3, at a concrete connection: the database is `test`, the server answers
the init-db command for `shop` with an OK packet. -/
theorem UseDB_other_database_witness :
    (demoConn [.packet demoOKPacket] []).db ≠ "shop" ∧
    (UseDB demoDeps "shop" (demoConn [.packet demoOKPacket] [])).1 = none ∧
    GetDB (UseDB demoDeps "shop" (demoConn [.packet demoOKPacket] [])).2 = "shop" :=
  ⟨by decide, by decide,
    ((UseDB_other_database demoDeps (demoConn [.packet demoOKPacket] []) "shop"
      (by decide)).1 (by decide)).1⟩

/-- The loop of `FieldList` on a stream of parseable non-EOF packets followed
by an EOF packet: it appends the parse of every packet, in order, consumes the
stream up to and including the EOF packet and returns without error. -/
theorem fieldListLoop_until_eof (D : Deps) (eof : List Nat) (rest : List Incoming)
    (heof : ∀ x, isEOFPacket x eof = true) :
    ∀ (later : List (List Nat)) (fields : List Field) (n : Nat) (c : Conn) (fs : List Field),
      c.pconn.rx = later.map Incoming.packet ++ Incoming.packet eof :: rest →
      (∀ p ∈ later, ∀ x, isEOFPacket x p = false) →
      later.map D.parseField = fields.map Res.ok →
      later.length < n →
      ∃ c', fieldListLoop D n c fs = (.returned (some (fs ++ fields), none), c') ∧
        c'.pconn.rx = rest ∧
        c'.pconn.log = c.pconn.log ++ later.map Event.read ++ [Event.read eof] := by
  intro later
  induction later with
  | nil =>
    intro fields n c fs hrx _ hparse hn
    cases n with
    | zero => exact absurd hn (Nat.lt_irrefl 0)
    | succ m =>
      have hf : fields = [] := by
        cases fields with
        | nil => rfl
        | cons a t => simp at hparse
      subst hf
      simp only [List.map_nil, List.nil_append] at hrx
      refine ⟨{ c with pconn := { c.pconn with
          rx := rest, log := c.pconn.log ++ [Event.read eof] } }, ?_, ?_, ?_⟩
      · simp only [fieldListLoop, ReadPacket, hrx, heof, if_true, List.append_nil]
      · simp
      · simp
  | cons p ps ih =>
    intro fields n c fs hrx hne hparse hn
    cases n with
    | zero => exact absurd hn (Nat.not_lt_zero _)
    | succ m =>
      cases fields with
      | nil => simp at hparse
      | cons f ft =>
        simp only [List.map_cons, List.cons.injEq] at hparse
        obtain ⟨hp, hpt⟩ := hparse
        simp only [List.map_cons, List.cons_append] at hrx
        have hnp : ∀ x, isEOFPacket x p = false := hne p (List.mem_cons_self _ _)
        have hstep : fieldListLoop D (m + 1) c fs =
            fieldListLoop D m
              { c with pconn := { c.pconn with
                  rx := ps.map Incoming.packet ++ Incoming.packet eof :: rest,
                  log := c.pconn.log ++ [Event.read p] } } (fs ++ [f]) := by
          simp [fieldListLoop, ReadPacket, hrx, hnp, hp]
        obtain ⟨c', h1, h2, h3⟩ := ih ft m
          { c with pconn := { c.pconn with
              rx := ps.map Incoming.packet ++ Incoming.packet eof :: rest,
              log := c.pconn.log ++ [Event.read p] } } (fs ++ [f]) rfl
          (fun q hq => hne q (List.mem_cons_of_mem _ hq)) hpt
          (Nat.lt_of_succ_lt_succ hn)
        refine ⟨c', ?_, h2, ?_⟩
        · rw [hstep, h1]
          simp
        · rw [h3]
          simp

/-- C4: when the command was written and the first packet of the response
begins with the error header byte `0xFF`, `FieldList` returns the nil slice
together with the error decoded from that packet; the traffic is the command
and that one read, and the rest of the stream is still unread. -/
theorem FieldList_error_first (D : Deps) (table wildcard : String) (c : Conn)
    (body : List Nat) (rest : List Incoming)
    (hw : (writeCommandStrStr COM_FIELD_LIST table wildcard c).1 = none)
    (hrx : c.pconn.rx = .packet (ERR_HEADER :: body) :: rest) :
    ∃ c', FieldList D table wildcard c =
        (.returned (none, some (handleErrorPacket D c' (ERR_HEADER :: body))), c') ∧
      c'.pconn.rx = rest ∧
      c'.pconn.log = c.pconn.log ++
        [.wrote (.command COM_FIELD_LIST [table, wildcard]), .read (ERR_HEADER :: body)] := by
  simp only [writeCommandStrStr, WritePacket] at hw
  simp only [FieldList, writeCommandStrStr, WritePacket, handleErrorPacket]
  rcases hwx : c.pconn.wx with _ | ⟨_ | e, wrest⟩
  · refine ⟨{ c with pconn := { c.pconn with rx := rest, log := c.pconn.log ++
        [.wrote (.command COM_FIELD_LIST [table, wildcard]), .read (ERR_HEADER :: body)] } },
      ?_, ?_, ?_⟩
    · simp [ReadPacket, hrx, hwx]
    · simp
    · simp
  · refine ⟨{ c with pconn := { c.pconn with rx := rest, wx := wrest, log := c.pconn.log ++
        [.wrote (.command COM_FIELD_LIST [table, wildcard]), .read (ERR_HEADER :: body)] } },
      ?_, ?_, ?_⟩
    · simp [ReadPacket, hrx, hwx]
    · simp
    · simp
  · simp [hwx] at hw

/-- C4, at a concrete connection: the server answers with an ERROR packet of
code 1146 and would have sent more. -/
theorem FieldList_error_first_witness :
    (FieldList demoDeps "t" "%"
      (demoConn [.packet demoErrPacket, .packet demoFieldPacket, .packet demoEOFPacket] [])).1 =
      .returned (none, some (.server 1146 "HY000" "")) ∧
    ∃ c', FieldList demoDeps "t" "%"
        (demoConn [.packet demoErrPacket, .packet demoFieldPacket, .packet demoEOFPacket] []) =
        (.returned (none, some (handleErrorPacket demoDeps c' (ERR_HEADER :: [0x7a, 0x04, 35]))), c') ∧
      c'.pconn.rx = [.packet demoFieldPacket, .packet demoEOFPacket] ∧
      c'.pconn.log = [] ++
        [.wrote (.command COM_FIELD_LIST ["t", "%"]), .read (ERR_HEADER :: [0x7a, 0x04, 35])] :=
  ⟨by decide,
    FieldList_error_first demoDeps "t" "%"
      (demoConn [.packet demoErrPacket, .packet demoFieldPacket, .packet demoEOFPacket] [])
      [0x7a, 0x04, 35] [.packet demoFieldPacket, .packet demoEOFPacket] (by decide) (by decide)⟩

/-- `FieldList` on a stream whose first packet is not an ERROR packet, followed
by parseable non-EOF packets and an EOF packet: the loop runs over everything
after the first packet. -/
theorem FieldList_after_first (D : Deps) (table wildcard : String) (c : Conn)
    (first eof : List Nat) (later : List (List Nat)) (fields : List Field)
    (rest : List Incoming)
    (hw : (writeCommandStrStr COM_FIELD_LIST table wildcard c).1 = none)
    (hrx : c.pconn.rx = .packet first :: (later.map Incoming.packet ++ .packet eof :: rest))
    (hne0 : first.head? ≠ none) (hnerr : first.head? ≠ some ERR_HEADER)
    (hne : ∀ p ∈ later, isEOFPacket c p = false)
    (hparse : later.map D.parseField = fields.map Res.ok)
    (heof : isEOFPacket c eof = true) :
    ∃ c', FieldList D table wildcard c = (.returned (some fields, none), c') ∧
      c'.pconn.rx = rest := by
  have heof' : ∀ x, isEOFPacket x eof = true := fun _ => heof
  have hne' : ∀ p ∈ later, ∀ x, isEOFPacket x p = false := fun p hp _ => hne p hp
  obtain ⟨b, body, hb⟩ : ∃ b body, first = b :: body := by
    cases first with
    | nil => exact absurd rfl hne0
    | cons b body => exact ⟨b, body, rfl⟩
  subst hb
  have hb : ¬ b = ERR_HEADER := fun h => hnerr (by simp [h])
  simp only [writeCommandStrStr, WritePacket] at hw
  rcases hwx : c.pconn.wx with _ | ⟨_ | e, wrest⟩
  · obtain ⟨c', h1, h2, _⟩ := fieldListLoop_until_eof D eof rest heof' later fields
      ((later.map Incoming.packet ++ Incoming.packet eof :: rest).length + 1)
      { c with pconn := { c.pconn with
          rx := later.map Incoming.packet ++ Incoming.packet eof :: rest,
          log := c.pconn.log ++
            [.wrote (.command COM_FIELD_LIST [table, wildcard]), .read (b :: body)] } }
      [] rfl hne' hparse (by simp; omega)
    refine ⟨c', ?_, h2⟩
    rw [List.nil_append] at h1
    rw [← h1]
    simp [FieldList, writeCommandStrStr, WritePacket, ReadPacket, hrx, hwx, hb]
  · obtain ⟨c', h1, h2, _⟩ := fieldListLoop_until_eof D eof rest heof' later fields
      ((later.map Incoming.packet ++ Incoming.packet eof :: rest).length + 1)
      { c with pconn := { c.pconn with
          rx := later.map Incoming.packet ++ Incoming.packet eof :: rest,
          wx := wrest,
          log := c.pconn.log ++
            [.wrote (.command COM_FIELD_LIST [table, wildcard]), .read (b :: body)] } }
      [] rfl hne' hparse (by simp; omega)
    refine ⟨c', ?_, h2⟩
    rw [List.nil_append] at h1
    rw [← h1]
    simp [FieldList, writeCommandStrStr, WritePacket, ReadPacket, hrx, hwx, hb]
  · simp [hwx] at hw

/-- C1, evaluated on the code: the server sends one well-formed field packet
and an EOF packet, and `FieldList` returns without error a slice of zero
Fields; with two field packets it returns only the parse of the second.  The
first packet of the response is tested for the error header and then
overwritten by the first read of the loop. -/
theorem FieldList_first_field_lost :
    demoParseField demoFieldPacket =
      .ok { name := [105, 100], type := 3, length := 11, decimals := 0, flags := 0 } ∧
    demoParseField demoFieldPacket2 =
      .ok { name := [110], type := 3, length := 11, decimals := 0, flags := 0 } ∧
    (FieldList demoDeps "t" ""
      (demoConn [.packet demoFieldPacket, .packet demoEOFPacket] [])).1 =
      .returned (some [], none) ∧
    (FieldList demoDeps "t" ""
      (demoConn [.packet demoFieldPacket, .packet demoFieldPacket2, .packet demoEOFPacket] [])).1 =
      .returned (some [{ name := [110], type := 3, length := 11, decimals := 0, flags := 0 }],
        none) := by
  decide

/-- C7 as stated fails: no packet count `N` makes `FieldList` give up.  For
every `N` there is a stream with more than `N` parseable non-EOF packets
after a first non-ERROR packet on which `FieldList` returns no error at all. -/
theorem FieldList_no_packet_bound :
    ¬ ∃ N : Nat, ∀ (D : Deps) (table wildcard : String) (c : Conn) (first : List Nat)
        (later : List (List Nat)) (rest : List Incoming),
      (writeCommandStrStr COM_FIELD_LIST table wildcard c).1 = none →
      c.pconn.rx = .packet first :: (later.map Incoming.packet ++ rest) →
      first.head? ≠ none → first.head? ≠ some ERR_HEADER →
      N < later.length →
      (∀ p ∈ later, isEOFPacket c p = false ∧ ∃ f, D.parseField p = .ok f) →
      ∃ e, (FieldList D table wildcard c).1 = .returned (none, some e) := by
  rintro ⟨N, h⟩
  have hbad := h demoDeps "t" "" (demoConn (demoLongStream (N + 1)) [])
    demoFieldPacket (List.replicate (N + 1) demoFieldPacket) [Incoming.packet demoEOFPacket]
    (by rfl) rfl (by decide) (by decide) (by simp)
    (by
      intro p hp
      rw [List.eq_of_mem_replicate hp]
      exact ⟨rfl, _, rfl⟩)
  obtain ⟨e, he⟩ := hbad
  obtain ⟨c', hgood, _⟩ := FieldList_after_first demoDeps "t" ""
    (demoConn (demoLongStream (N + 1)) [])
    demoFieldPacket demoEOFPacket (List.replicate (N + 1) demoFieldPacket)
    (List.replicate (N + 1)
      { name := [105, 100], type := 3, length := 11, decimals := 0, flags := 0 })
    [] (by rfl) rfl (by decide) (by decide)
    (by
      intro p hp
      rw [List.eq_of_mem_replicate hp]
      rfl)
    (by simp only [List.map_replicate]; rfl)
    rfl
  rw [hgood] at he
  simp at he

/-- The loop of `FieldList` over a run of parseable non-EOF packets: one
iteration per packet, each appending its parse, whatever comes after the run. -/
theorem fieldListLoop_over_fields (D : Deps) :
    ∀ (later : List (List Nat)) (fields : List Field) (m : Nat) (c : Conn) (fs : List Field)
      (tail : List Incoming),
      c.pconn.rx = later.map Incoming.packet ++ tail →
      (∀ p ∈ later, ∀ x, isEOFPacket x p = false) →
      later.map D.parseField = fields.map Res.ok →
      ∃ c', fieldListLoop D (later.length + m) c fs = fieldListLoop D m c' (fs ++ fields) ∧
        c'.pconn.rx = tail ∧
        c'.pconn.log = c.pconn.log ++ later.map Event.read := by
  intro later
  induction later with
  | nil =>
    intro fields m c fs tail hrx _ hparse
    have hf : fields = [] := by
      cases fields with
      | nil => rfl
      | cons a t => simp at hparse
    subst hf
    refine ⟨c, ?_, ?_, ?_⟩
    · simp
    · simpa using hrx
    · simp
  | cons p ps ih =>
    intro fields m c fs tail hrx hne hparse
    cases fields with
    | nil => simp at hparse
    | cons f ft =>
      simp only [List.map_cons, List.cons.injEq] at hparse
      obtain ⟨hp, hpt⟩ := hparse
      simp only [List.map_cons, List.cons_append] at hrx
      have hnp : ∀ x, isEOFPacket x p = false := hne p (List.mem_cons_self _ _)
      have hfuel : (p :: ps).length + m = (ps.length + m) + 1 := by
        simp only [List.length_cons]
        omega
      have hstep : fieldListLoop D ((ps.length + m) + 1) c fs =
          fieldListLoop D (ps.length + m)
            { c with pconn := { c.pconn with
                rx := ps.map Incoming.packet ++ tail,
                log := c.pconn.log ++ [Event.read p] } } (fs ++ [f]) := by
        simp [fieldListLoop, ReadPacket, hrx, hnp, hp]
      obtain ⟨c', h1, h2, h3⟩ := ih ft m
        { c with pconn := { c.pconn with
            rx := ps.map Incoming.packet ++ tail,
            log := c.pconn.log ++ [Event.read p] } } (fs ++ [f]) tail rfl
        (fun q hq => hne q (List.mem_cons_of_mem _ hq)) hpt
      refine ⟨c', ?_, h2, ?_⟩
      · rw [hfuel, hstep, h1]
        simp
      · rw [h3]
        simp

/-- `FieldList` on a stream whose first packet is non-empty and not an ERROR
packet, followed by a run of parseable non-EOF packets: after the run the loop
stands before the rest of the stream with the parses of the run collected and
budget for every item that is left. -/
theorem FieldList_after_fields (D : Deps) (table wildcard : String) (c : Conn)
    (first : List Nat) (later : List (List Nat)) (fields : List Field)
    (tail : List Incoming)
    (hw : (writeCommandStrStr COM_FIELD_LIST table wildcard c).1 = none)
    (hrx : c.pconn.rx = .packet first :: (later.map Incoming.packet ++ tail))
    (hne0 : first.head? ≠ none) (hnerr : first.head? ≠ some ERR_HEADER)
    (hne : ∀ p ∈ later, isEOFPacket c p = false)
    (hparse : later.map D.parseField = fields.map Res.ok) :
    ∃ c', FieldList D table wildcard c = fieldListLoop D (tail.length + 1) c' fields ∧
      c'.pconn.rx = tail := by
  have hne' : ∀ p ∈ later, ∀ x, isEOFPacket x p = false := fun p hp _ => hne p hp
  obtain ⟨b, body, hb⟩ : ∃ b body, first = b :: body := by
    cases first with
    | nil => exact absurd rfl hne0
    | cons b body => exact ⟨b, body, rfl⟩
  subst hb
  have hb : ¬ b = ERR_HEADER := fun h => hnerr (by simp [h])
  have hfuel : (later.map Incoming.packet ++ tail).length + 1 =
      later.length + (tail.length + 1) := by
    simp only [List.length_append, List.length_map]
    omega
  simp only [writeCommandStrStr, WritePacket] at hw
  rcases hwx : c.pconn.wx with _ | ⟨_ | e, wrest⟩
  · obtain ⟨c', h1, h2, _⟩ := fieldListLoop_over_fields D later fields (tail.length + 1)
      { c with pconn := { c.pconn with
          rx := later.map Incoming.packet ++ tail,
          log := c.pconn.log ++
            [.wrote (.command COM_FIELD_LIST [table, wildcard]), .read (b :: body)] } }
      [] tail rfl hne' hparse
    refine ⟨c', ?_, h2⟩
    rw [List.nil_append] at h1
    rw [← h1, ← hfuel]
    simp [FieldList, writeCommandStrStr, WritePacket, ReadPacket, hrx, hwx, hb]
  · obtain ⟨c', h1, h2, _⟩ := fieldListLoop_over_fields D later fields (tail.length + 1)
      { c with pconn := { c.pconn with
          rx := later.map Incoming.packet ++ tail,
          wx := wrest,
          log := c.pconn.log ++
            [.wrote (.command COM_FIELD_LIST [table, wildcard]), .read (b :: body)] } }
      [] tail rfl hne' hparse
    refine ⟨c', ?_, h2⟩
    rw [List.nil_append] at h1
    rw [← h1, ← hfuel]
    simp [FieldList, writeCommandStrStr, WritePacket, ReadPacket, hrx, hwx, hb]
  · simp [hwx] at hw

/-- C7, amended: `FieldList` has no packet-count bound.  After a first packet
that is non-empty and not an ERROR packet, however many parseable non-EOF
packets follow, `FieldList` reads every one of them and stops only at what
comes next.  At an EOF packet it returns without error, the parses of those
packets being the tail of the returned Fields in server order.  At a read
error it returns the nil slice and that error, traced; a stream that has ended
is such a read error.  At a non-EOF packet that does not parse it returns the
nil slice and the parse error, traced.  In each case the stream is consumed up
to and including the item it stopped at. -/
theorem FieldList_reads_until_eof (D : Deps) (table wildcard : String) (c : Conn)
    (first : List Nat) (later : List (List Nat)) (fields : List Field)
    (hw : (writeCommandStrStr COM_FIELD_LIST table wildcard c).1 = none)
    (hne0 : first.head? ≠ none) (hnerr : first.head? ≠ some ERR_HEADER)
    (hne : ∀ p ∈ later, isEOFPacket c p = false)
    (hparse : later.map D.parseField = fields.map Res.ok) :
    (∀ (eof : List Nat) (rest : List Incoming),
      c.pconn.rx = .packet first :: (later.map Incoming.packet ++ .packet eof :: rest) →
      isEOFPacket c eof = true →
      ∃ fs c', FieldList D table wildcard c = (.returned (some fs, none), c') ∧
        fields <:+ fs ∧ later.length ≤ fs.length ∧ c'.pconn.rx = rest) ∧
    (∀ (e : Error) (rest : List Incoming),
      c.pconn.rx = .packet first :: (later.map Incoming.packet ++ .failure e :: rest) →
      ∃ c', FieldList D table wildcard c = (.returned (none, some (.traced e)), c') ∧
        c'.pconn.rx = rest) ∧
    (c.pconn.rx = .packet first :: (later.map Incoming.packet ++ []) →
      ∃ c', FieldList D table wildcard c =
          (.returned (none, some (.traced (.io "EOF"))), c') ∧
        c'.pconn.rx = []) ∧
    (∀ (bad : List Nat) (e : Error) (rest : List Incoming),
      c.pconn.rx = .packet first :: (later.map Incoming.packet ++ .packet bad :: rest) →
      isEOFPacket c bad = false → D.parseField bad = .err e →
      ∃ c', FieldList D table wildcard c = (.returned (none, some (.traced e)), c') ∧
        c'.pconn.rx = rest) := by
  have hlen : later.length = fields.length := by
    have := congrArg List.length hparse
    simpa using this
  refine ⟨?_, ?_, ?_, ?_⟩
  · intro eof rest hrx heof
    obtain ⟨c2, hF, hrx2⟩ := FieldList_after_fields D table wildcard c first later fields
      (.packet eof :: rest) hw hrx hne0 hnerr hne hparse
    have heof2 : ∀ x, isEOFPacket x eof = true := fun _ => heof
    refine ⟨fields, { c2 with pconn := { c2.pconn with
      rx := rest, log := c2.pconn.log ++ [Event.read eof] } },
      ?_, List.suffix_refl _, by omega, rfl⟩
    rw [hF]
    simp [fieldListLoop, ReadPacket, hrx2, heof2]
  · intro e rest hrx
    obtain ⟨c2, hF, hrx2⟩ := FieldList_after_fields D table wildcard c first later fields
      (.failure e :: rest) hw hrx hne0 hnerr hne hparse
    refine ⟨{ c2 with pconn := { c2.pconn with
      rx := rest, log := c2.pconn.log ++ [Event.readFailed e] } }, ?_, rfl⟩
    rw [hF]
    simp [fieldListLoop, ReadPacket, hrx2]
  · intro hrx
    obtain ⟨c2, hF, hrx2⟩ := FieldList_after_fields D table wildcard c first later fields
      [] hw hrx hne0 hnerr hne hparse
    refine ⟨{ c2 with pconn := { c2.pconn with
      log := c2.pconn.log ++ [Event.readFailed (.io "EOF")] } }, ?_, hrx2⟩
    rw [hF]
    simp [fieldListLoop, ReadPacket, hrx2]
  · intro bad e rest hrx hbad hperr
    obtain ⟨c2, hF, hrx2⟩ := FieldList_after_fields D table wildcard c first later fields
      (.packet bad :: rest) hw hrx hne0 hnerr hne hparse
    have hbad2 : ∀ x, isEOFPacket x bad = false := fun _ => hbad
    refine ⟨{ c2 with pconn := { c2.pconn with
      rx := rest, log := c2.pconn.log ++ [Event.read bad] } }, ?_, rfl⟩
    rw [hF]
    simp [fieldListLoop, ReadPacket, hrx2, hbad2, hperr]

/-- C7 amended, at concrete connections: three field packets after the first
and then an EOF packet with more behind it; two field packets and then a
transport error; two field packets and then a packet that does not parse; one
field packet and then nothing. -/
theorem FieldList_reads_until_eof_witness :
    (∃ fs c', FieldList demoDeps "t" ""
        (demoConn [.packet demoFieldPacket, .packet demoFieldPacket2, .packet demoFieldPacket,
          .packet demoFieldPacket2, .packet demoEOFPacket, .packet demoFieldPacket] []) =
        (.returned (some fs, none), c') ∧
      [{ name := [110], type := 3, length := 11, decimals := 0, flags := 0 },
        { name := [105, 100], type := 3, length := 11, decimals := 0, flags := 0 },
        { name := [110], type := 3, length := 11, decimals := 0, flags := 0 }] <:+ fs ∧
      [demoFieldPacket2, demoFieldPacket, demoFieldPacket2].length ≤ fs.length ∧
      c'.pconn.rx = [.packet demoFieldPacket]) ∧
    (∃ c', FieldList demoDeps "t" ""
        (demoConn [.packet demoFieldPacket, .packet demoFieldPacket2, .packet demoFieldPacket,
          .failure (.io "connection reset"), .packet demoEOFPacket] []) =
        (.returned (none, some (.traced (.io "connection reset"))), c') ∧
      c'.pconn.rx = [.packet demoEOFPacket]) ∧
    (∃ c', FieldList demoDeps "t" ""
        (demoConn [.packet demoFieldPacket, .packet demoFieldPacket2, .packet demoFieldPacket,
          .packet [9, 1], .packet demoEOFPacket] []) =
        (.returned (none, some (.traced (.protocol "malformed field packet"))), c') ∧
      c'.pconn.rx = [.packet demoEOFPacket]) ∧
    (∃ c', FieldList demoDeps "t" ""
        (demoConn [.packet demoFieldPacket, .packet demoFieldPacket2] []) =
        (.returned (none, some (.traced (.io "EOF"))), c') ∧
      c'.pconn.rx = []) :=
  ⟨(FieldList_reads_until_eof demoDeps "t" ""
      (demoConn [.packet demoFieldPacket, .packet demoFieldPacket2, .packet demoFieldPacket,
        .packet demoFieldPacket2, .packet demoEOFPacket, .packet demoFieldPacket] [])
      demoFieldPacket [demoFieldPacket2, demoFieldPacket, demoFieldPacket2]
      [{ name := [110], type := 3, length := 11, decimals := 0, flags := 0 },
        { name := [105, 100], type := 3, length := 11, decimals := 0, flags := 0 },
        { name := [110], type := 3, length := 11, decimals := 0, flags := 0 }]
      (by decide) (by decide) (by decide) (by decide) (by decide)).1
      demoEOFPacket [.packet demoFieldPacket] (by decide) (by decide),
    (FieldList_reads_until_eof demoDeps "t" ""
      (demoConn [.packet demoFieldPacket, .packet demoFieldPacket2, .packet demoFieldPacket,
        .failure (.io "connection reset"), .packet demoEOFPacket] [])
      demoFieldPacket [demoFieldPacket2, demoFieldPacket]
      [{ name := [110], type := 3, length := 11, decimals := 0, flags := 0 },
        { name := [105, 100], type := 3, length := 11, decimals := 0, flags := 0 }]
      (by decide) (by decide) (by decide) (by decide) (by decide)).2.1
      (.io "connection reset") [.packet demoEOFPacket] (by decide),
    (FieldList_reads_until_eof demoDeps "t" ""
      (demoConn [.packet demoFieldPacket, .packet demoFieldPacket2, .packet demoFieldPacket,
        .packet [9, 1], .packet demoEOFPacket] [])
      demoFieldPacket [demoFieldPacket2, demoFieldPacket]
      [{ name := [110], type := 3, length := 11, decimals := 0, flags := 0 },
        { name := [105, 100], type := 3, length := 11, decimals := 0, flags := 0 }]
      (by decide) (by decide) (by decide) (by decide) (by decide)).2.2.2
      [9, 1] (.protocol "malformed field packet") [.packet demoEOFPacket]
      (by decide) (by decide) (by decide),
    (FieldList_reads_until_eof demoDeps "t" ""
      (demoConn [.packet demoFieldPacket, .packet demoFieldPacket2] [])
      demoFieldPacket [demoFieldPacket2]
      [{ name := [110], type := 3, length := 11, decimals := 0, flags := 0 }]
      (by decide) (by decide) (by decide) (by decide) (by decide)).2.2.1 (by decide)⟩

/-- The four ways `handshake` can go: the first failing step decides, its
error comes back traced and `Close` is applied to the connection that step
left; when no step fails the connection is the one the last step left. -/
theorem handshake_cases (D : Deps) (c : Conn) :
    (∃ e c1, D.readInitialHandshake c = (some e, c1) ∧
      handshake D c = (some (.traced e), (Close c1).2)) ∨
    (∃ c1 e c2, D.readInitialHandshake c = (none, c1) ∧
      D.writeAuthHandshake c1 = (some e, c2) ∧
      handshake D c = (some (.traced e), (Close c2).2)) ∨
    (∃ c1 c2 e c3, D.readInitialHandshake c = (none, c1) ∧
      D.writeAuthHandshake c1 = (none, c2) ∧ D.handleAuthResult c2 = (some e, c3) ∧
      handshake D c = (some (.traced e), (Close c3).2)) ∨
    (∃ c1 c2 c3, D.readInitialHandshake c = (none, c1) ∧
      D.writeAuthHandshake c1 = (none, c2) ∧ D.handleAuthResult c2 = (none, c3) ∧
      handshake D c = (none, c3)) := by
  rcases h1 : D.readInitialHandshake c with ⟨_ | e1, c1⟩
  · rcases h2 : D.writeAuthHandshake c1 with ⟨_ | e2, c2⟩
    · rcases h3 : D.handleAuthResult c2 with ⟨_ | e3, c3⟩
      · exact Or.inr (Or.inr (Or.inr ⟨c1, c2, c3, rfl, h2, h3, by simp [handshake, h1, h2, h3]⟩))
      · exact Or.inr (Or.inr (Or.inl ⟨c1, c2, e3, c3, rfl, h2, h3,
          by simp [handshake, h1, h2, h3]⟩))
    · exact Or.inr (Or.inl ⟨c1, e2, c2, rfl, h2, by simp [handshake, h1, h2]⟩)
  · exact Or.inl ⟨e1, c1, rfl, by simp [handshake, h1]⟩

/-- With steps that do not close the connection, a failed `handshake` has
closed it once and a successful one has not closed it. -/
theorem handshake_closes (D : Deps) (hD : D.stepsKeepOpen) (c : Conn) :
    ((handshake D c).1 ≠ none → (handshake D c).2.pconn.closes = c.pconn.closes + 1) ∧
    ((handshake D c).1 = none → (handshake D c).2.pconn.closes = c.pconn.closes) := by
  rcases handshake_cases D c with ⟨e, c1, h1, h⟩ | ⟨c1, e, c2, h1, h2, h⟩ |
      ⟨c1, c2, e, c3, h1, h2, h3, h⟩ | ⟨c1, c2, c3, h1, h2, h3, h⟩
  · have k1 := (hD c).1
    rw [h1] at k1
    simp at k1
    simp [h, Close, k1]
  · have k1 := (hD c).1
    have k2 := (hD c1).2.1
    rw [h1] at k1
    rw [h2] at k2
    simp at k1 k2
    simp [h, Close, k1, k2]
  · have k1 := (hD c).1
    have k2 := (hD c1).2.1
    have k3 := (hD c2).2.2
    rw [h1] at k1
    rw [h2] at k2
    rw [h3] at k3
    simp at k1 k2 k3
    simp [h, Close, k1, k2, k3]
  · have k1 := (hD c).1
    have k2 := (hD c1).2.1
    have k3 := (hD c2).2.2
    rw [h1] at k1
    rw [h2] at k2
    rw [h3] at k3
    simp at k1 k2 k3
    simp [h, k1, k2, k3]

/-- With steps that do not overwrite the credentials, `handshake` leaves
`user`, `password` and `db` as they were. -/
theorem handshake_credentials (D : Deps) (hD : D.stepsKeepCredentials) (c : Conn) :
    (handshake D c).2.credentials = c.credentials := by
  rcases handshake_cases D c with ⟨e, c1, h1, h⟩ | ⟨c1, e, c2, h1, h2, h⟩ |
      ⟨c1, c2, e, c3, h1, h2, h3, h⟩ | ⟨c1, c2, c3, h1, h2, h3, h⟩
  · have k1 := (hD c).1
    rw [h1] at k1
    rw [h, ← k1]
    rfl
  · have k1 := (hD c).1
    have k2 := (hD c1).2.1
    rw [h1] at k1
    rw [h2] at k2
    rw [h, ← k1, ← k2]
    rfl
  · have k1 := (hD c).1
    have k2 := (hD c1).2.1
    have k3 := (hD c2).2.2
    rw [h1] at k1
    rw [h2] at k2
    rw [h3] at k3
    rw [h, ← k1, ← k2, ← k3]
    rfl
  · have k1 := (hD c).1
    have k2 := (hD c1).2.1
    have k3 := (hD c2).2.2
    rw [h1] at k1
    rw [h2] at k2
    rw [h3] at k3
    rw [h, ← k1, ← k2, ← k3]

/-- The toy handshake steps never close the connection. -/
theorem demoDeps_stepsKeepOpen : demoDeps.stepsKeepOpen := by
  intro x
  refine ⟨?_, ?_, ?_⟩
  · simp only [demoDeps, demoReadInitialHandshake, ReadPacket]
    rcases x.pconn.rx with _ | ⟨pkt | e, rest⟩
    · rfl
    · simp only []
      split <;> rfl
    · rfl
  · simp only [demoDeps, demoWriteAuthHandshake, WritePacket]
    rcases x.pconn.wx with _ | ⟨_ | e, rest⟩ <;> rfl
  · simp only [demoDeps, demoHandleAuthResult, ReadPacket]
    rcases x.pconn.rx with _ | ⟨pkt | e, rest⟩
    · rfl
    · simp only []
      split
      · rfl
      · split <;> rfl
    · rfl

/-- The toy handshake steps never overwrite the credentials. -/
theorem demoDeps_stepsKeepCredentials : demoDeps.stepsKeepCredentials := by
  intro x
  refine ⟨?_, ?_, ?_⟩
  · simp only [demoDeps, demoReadInitialHandshake, ReadPacket]
    rcases x.pconn.rx with _ | ⟨pkt | e, rest⟩
    · rfl
    · simp only []
      split <;> rfl
    · rfl
  · simp only [demoDeps, demoWriteAuthHandshake, WritePacket]
    rcases x.pconn.wx with _ | ⟨_ | e, rest⟩ <;> rfl
  · simp only [demoDeps, demoHandleAuthResult, ReadPacket]
    rcases x.pconn.rx with _ | ⟨pkt | e, rest⟩
    · rfl
    · simp only []
      split
      · rfl
      · split <;> rfl
    · rfl

/-- The toy result decoder keeps the charset and only adds to the traffic. -/
theorem demoDeps_readResultKeepsCharset : demoDeps.readResultKeepsCharset := by
  intro b x
  simp only [demoDeps, demoReadResult, ReadPacket]
  rcases x.pconn.rx with _ | ⟨pkt | e, rest⟩
  · exact ⟨rfl, List.prefix_append _ _⟩
  · simp only []
    split
    · split
      · exact ⟨rfl, List.prefix_append _ _⟩
      · exact ⟨rfl, List.prefix_append _ _⟩
    · split
      · exact ⟨rfl, List.prefix_append _ _⟩
      · exact ⟨rfl, List.prefix_append _ _⟩
  · exact ⟨rfl, List.prefix_append _ _⟩

/-- C6: `handshake` runs the greeting read, the auth write and the auth-result
handling in this order.  The first step that fails ends it: no later step is
applied, `Close` is applied once to the connection that step left and the
step's error is returned (traced); when all three succeed the result is
success and the connection the last step left, not closed.  With steps that do
not close the connection themselves the close count goes up by exactly one on
every failure and stays put on success. -/
theorem handshake_contract (D : Deps) (hD : D.stepsKeepOpen) (c : Conn) :
    ((∃ e c1, D.readInitialHandshake c = (some e, c1) ∧
        handshake D c = (some (.traced e), (Close c1).2)) ∨
      (∃ c1 e c2, D.readInitialHandshake c = (none, c1) ∧
        D.writeAuthHandshake c1 = (some e, c2) ∧
        handshake D c = (some (.traced e), (Close c2).2)) ∨
      (∃ c1 c2 e c3, D.readInitialHandshake c = (none, c1) ∧
        D.writeAuthHandshake c1 = (none, c2) ∧ D.handleAuthResult c2 = (some e, c3) ∧
        handshake D c = (some (.traced e), (Close c3).2)) ∨
      (∃ c1 c2 c3, D.readInitialHandshake c = (none, c1) ∧
        D.writeAuthHandshake c1 = (none, c2) ∧ D.handleAuthResult c2 = (none, c3) ∧
        handshake D c = (none, c3))) ∧
    ((handshake D c).1 ≠ none → (handshake D c).2.pconn.closes = c.pconn.closes + 1) ∧
    ((handshake D c).1 = none → (handshake D c).2.pconn.closes = c.pconn.closes) :=
  ⟨handshake_cases D c, handshake_closes D hD c⟩

/-- C6, at concrete connections: the server rejects the credentials with an
ERROR packet (the third step fails, one close), and the greeting is never
delivered (the first step fails, nothing is written, one close). -/
theorem handshake_contract_witness :
    (handshake demoDeps
      (demoConn [.packet [10, 7, 1, 2, 3], .packet demoErrPacket] [])).1 =
      some (.traced (.server 1146 "HY000" "")) ∧
    (handshake demoDeps
      (demoConn [.packet [10, 7, 1, 2, 3], .packet demoErrPacket] [])).2.pconn.closes =
      (demoConn [.packet [10, 7, 1, 2, 3], .packet demoErrPacket] []).pconn.closes + 1 ∧
    (handshake demoDeps (demoConn [] [])).2.pconn.log = [.readFailed (.io "EOF")] ∧
    (handshake demoDeps (demoConn [] [])).2.pconn.closes = (demoConn [] []).pconn.closes + 1 :=
  ⟨by decide,
    (handshake_contract demoDeps demoDeps_stepsKeepOpen
      (demoConn [.packet [10, 7, 1, 2, 3], .packet demoErrPacket] [])).2.1 (by decide),
    by decide,
    (handshake_contract demoDeps demoDeps_stepsKeepOpen (demoConn [] [])).2.1 (by decide)⟩

/-- C10: `LoginTest` runs `handshake` on the connection with the three
credentials stored and returns what `handshake` returns, so it succeeds
exactly when the handshake does.  On failure the connection is the one
`handshake` left (closed there); on success it is that connection with `Close`
applied by `LoginTest`.  With steps that neither close the connection nor
overwrite the credentials, in both cases the credentials are the ones passed
in and the close count has gone up by exactly one. -/
theorem LoginTest_contract (D : Deps) (hopen : D.stepsKeepOpen)
    (hcred : D.stepsKeepCredentials) (conn : Conn) (username password dbname : String) :
    (LoginTest D conn username password dbname).1 =
      (handshake D { conn with user := username, password := password, db := dbname }).1 ∧
    ((handshake D { conn with user := username, password := password, db := dbname }).1 ≠ none →
      (LoginTest D conn username password dbname).2 =
        (handshake D { conn with user := username, password := password, db := dbname }).2) ∧
    ((handshake D { conn with user := username, password := password, db := dbname }).1 = none →
      (LoginTest D conn username password dbname).2 =
        (Close (handshake D
          { conn with user := username, password := password, db := dbname }).2).2) ∧
    (LoginTest D conn username password dbname).2.credentials =
      (username, password, dbname) ∧
    (LoginTest D conn username password dbname).2.pconn.closes = conn.pconn.closes + 1 := by
  have hcl := handshake_closes D hopen
    { conn with user := username, password := password, db := dbname }
  have hcr := handshake_credentials D hcred
    { conn with user := username, password := password, db := dbname }
  simp only [LoginTest]
  rcases hh : handshake D { conn with user := username, password := password, db := dbname }
    with ⟨_ | e, c2⟩
  · rw [hh] at hcl hcr
    have h2 : c2.pconn.closes = conn.pconn.closes := hcl.2 rfl
    simp only [Conn.credentials, Prod.mk.injEq] at hcr
    simp [Close, Conn.credentials, hcr, h2]
  · rw [hh] at hcl hcr
    have h1 : c2.pconn.closes = conn.pconn.closes + 1 := hcl.1 (by simp)
    simp only [Conn.credentials, Prod.mk.injEq] at hcr
    simp [Conn.credentials, hcr, h1]

/-- C10, at a concrete connection: the server greets and accepts, `LoginTest`
returns success with the credentials stored and the connection closed once. -/
theorem LoginTest_contract_witness :
    (LoginTest demoDeps (demoConn [.packet [10, 7, 1, 2, 3], .packet demoOKPacket] [])
      "app" "pw" "shop").1 = none ∧
    (LoginTest demoDeps (demoConn [.packet [10, 7, 1, 2, 3], .packet demoOKPacket] [])
      "app" "pw" "shop").2.credentials = ("app", "pw", "shop") ∧
    (LoginTest demoDeps (demoConn [.packet [10, 7, 1, 2, 3], .packet demoOKPacket] [])
      "app" "pw" "shop").2.pconn.closes =
      (demoConn [.packet [10, 7, 1, 2, 3], .packet demoOKPacket] []).pconn.closes + 1 :=
  ⟨by decide,
    (LoginTest_contract demoDeps demoDeps_stepsKeepOpen demoDeps_stepsKeepCredentials
      (demoConn [.packet [10, 7, 1, 2, 3], .packet demoOKPacket] []) "app" "pw" "shop").2.2.2⟩

/-- `WritePacket` touches the packet channel only: the charset stays, and the
traffic grows by the one write, done or failed. -/
theorem WritePacket_effect (f : Frame) (c : Conn) :
    (WritePacket f c).2.charset = c.charset ∧
    (((WritePacket f c).1 = none ∧
        (WritePacket f c).2.pconn.log = c.pconn.log ++ [Event.wrote f]) ∨
      ∃ e, (WritePacket f c).1 = some e ∧
        (WritePacket f c).2.pconn.log = c.pconn.log ++ [Event.writeFailed f e]) := by
  unfold WritePacket
  rcases c.pconn.wx with _ | ⟨_ | e, wrest⟩
  · exact ⟨rfl, Or.inl ⟨rfl, rfl⟩⟩
  · exact ⟨rfl, Or.inl ⟨rfl, rfl⟩⟩
  · exact ⟨rfl, Or.inr ⟨e, rfl, rfl⟩⟩

/-- C5: `SetCharset` with the stored charset returns success and leaves the
connection untouched, so no command is sent.  With another charset the first
thing it does on the packet channel is to write the query `SET NAMES <cs>`
(the write may fail); afterwards `GetCharset` is the new name when the call
returned success, with the query on the wire, and the old name when it
returned an error.  The result decoder is any one that leaves the stored
charset alone and only adds to the traffic. -/
theorem SetCharset_contract (D : Deps) (hres : D.readResultKeepsCharset) (c : Conn)
    (cs : String) :
    (c.charset = cs → SetCharset D cs c = (none, c)) ∧
    (c.charset ≠ cs →
      (∃ ev, (ev = Event.wrote (.command COM_QUERY ["SET NAMES " ++ cs]) ∨
            ∃ e, ev = Event.writeFailed (.command COM_QUERY ["SET NAMES " ++ cs]) e) ∧
          c.pconn.log ++ [ev] <+: (SetCharset D cs c).2.pconn.log) ∧
      ((SetCharset D cs c).1 = none →
        GetCharset (SetCharset D cs c).2 = cs ∧
        c.pconn.log ++ [Event.wrote (.command COM_QUERY ["SET NAMES " ++ cs])] <+:
          (SetCharset D cs c).2.pconn.log) ∧
      ((SetCharset D cs c).1 ≠ none → GetCharset (SetCharset D cs c).2 = c.charset)) := by
  constructor
  · intro h
    simp [SetCharset, h]
  · intro h
    have hwe := WritePacket_effect (.command COM_QUERY ["SET NAMES " ++ cs]) c
    simp only [SetCharset, if_neg h, exec, writeCommandStr, GetCharset]
    rcases hw : WritePacket (.command COM_QUERY ["SET NAMES " ++ cs]) c with ⟨_ | e, c1⟩
    · rw [hw] at hwe
      obtain ⟨hch, hlog⟩ := hwe
      have hlog1 : c1.pconn.log =
          c.pconn.log ++ [Event.wrote (.command COM_QUERY ["SET NAMES " ++ cs])] := by
        rcases hlog with ⟨_, h2⟩ | ⟨e, h1, _⟩
        · exact h2
        · simp at h1
      have hr := hres false c1
      rcases hd : D.readResult false c1 with ⟨r | e2, c2⟩
      · rw [hd] at hr
        simp only [hd]
        simp only [] at hr
        rw [hlog1] at hr
        refine ⟨⟨_, Or.inl rfl, hr.2⟩, ?_, ?_⟩
        · simpa using hr.2
        · simp
      · rw [hd] at hr
        simp only [hd]
        simp only [] at hr hch
        rw [hlog1] at hr
        refine ⟨⟨_, Or.inl rfl, hr.2⟩, ?_, ?_⟩
        · simp
        · simpa using hr.1.trans hch
    · rw [hw] at hwe
      obtain ⟨hch, hlog⟩ := hwe
      have hlog1 : c1.pconn.log =
          c.pconn.log ++ [Event.writeFailed (.command COM_QUERY ["SET NAMES " ++ cs]) e] := by
        rcases hlog with ⟨h1, _⟩ | ⟨e', h1, h2⟩
        · simp at h1
        · simp only [Option.some.injEq] at h1
          rw [h1]
          exact h2
      simp only [] at hch ⊢
      refine ⟨⟨_, Or.inr ⟨e, rfl⟩, ?_⟩, fun hne => by simp at hne, fun _ => hch⟩
      rw [hlog1]

/-- C5, at concrete connections: the charset is `utf8`; asking for `utf8`
again sends nothing, asking for `latin1` succeeds on an OK packet and fails on
an ERROR packet. -/
theorem SetCharset_contract_witness :
    SetCharset demoDeps "utf8" (demoConn [.packet demoOKPacket] []) =
      (none, demoConn [.packet demoOKPacket] []) ∧
    (SetCharset demoDeps "latin1" (demoConn [.packet demoOKPacket] [])).1 = none ∧
    GetCharset (SetCharset demoDeps "latin1" (demoConn [.packet demoOKPacket] [])).2 =
      "latin1" ∧
    (SetCharset demoDeps "latin1" (demoConn [.packet demoErrPacket] [])).1 =
      some (.traced (.server 1146 "HY000" "")) ∧
    GetCharset (SetCharset demoDeps "latin1" (demoConn [.packet demoErrPacket] [])).2 =
      (demoConn [.packet demoErrPacket] []).charset :=
  ⟨(SetCharset_contract demoDeps demoDeps_readResultKeepsCharset
      (demoConn [.packet demoOKPacket] []) "utf8").1 (by decide),
    by decide,
    (((SetCharset_contract demoDeps demoDeps_readResultKeepsCharset
      (demoConn [.packet demoOKPacket] []) "latin1").2 (by decide)).2.1 (by decide)).1,
    by decide,
    ((SetCharset_contract demoDeps demoDeps_readResultKeepsCharset
      (demoConn [.packet demoErrPacket] []) "latin1").2 (by decide)).2.2 (by decide)⟩

end GoMysql
